import Mathlib

/-
  Verification of dvd-vr.c (pixelb/dvd-vr): a reader/extractor for the
  DVD-VR disc format.  The definitions below are a shallow embedding of the
  relevant parts of src/dvd-vr.c.  Machine integers are modelled as Nat with
  explicit `% 2^w` at the places where the C code truncates (uint16, uint32);
  big-endian field reads become arithmetic on byte values; file descriptors
  become read/write oracles; the filesystem becomes a name-existence
  predicate.  References of the form "src line N" point into src/dvd-vr.c.
-/

set_option autoImplicit false

namespace DvdVr

/-! ## Data structures (src lines 392-464) -/

/-- One program-set entry (`psi_t`, src lines 455-464).  Only the two fields
that `find_program_text_info` reads are modelled; both are uint16 on disk. -/
structure psi_t where
  nr_of_programs : Nat
  first_prog_id : Nat
  deriving Repr, DecidableEq

/-- One 3-byte VOBU size record (`vobu_info_t`, src lines 425-427).
Each field is one byte (uint8). -/
structure vobu_info_t where
  b0 : Nat
  b1 : Nat
  b2 : Nat
  deriving Repr, DecidableEq

/-- The six local bitfield values extracted by `parse_pgtm`
(src lines 596-601). -/
structure pgtm_fields where
  year : Nat
  month : Nat
  day : Nat
  hour : Nat
  min : Nat
  sec : Nat
  deriving Repr, DecidableEq

/-- The relevant part of `struct tm` as filled in by `parse_pgtm`
(src lines 603-608): the source stores `year-1900` and `month-1`. -/
structure tm_t where
  tm_year : Int
  tm_mon : Int
  tm_mday : Nat
  tm_hour : Nat
  tm_min : Nat
  tm_sec : Nat
  deriving Repr, DecidableEq

/-! ## Bitfield decoders -/

/-- Big-endian 16-bit read from two bytes, as done by `ntohs` on a 2-byte
field (the `% 256` records that the inputs are uint8 bytes). -/
def read_u16be (hi lo : Nat) : Nat :=
  (hi % 256) * 256 + lo % 256

/-- Sector count of one VOBU record, src lines 1041-1042:
`vobu_size = ntohs(*(uint16_t*)(&vobu_info->vobu_info[1])) & 0x03FF`.
The mask `& 0x03FF` is written `% 1024`. -/
def vobu_size (v : vobu_info_t) : Nat :=
  read_u16be v.b1 v.b2 % 1024

/-- The 40-bit big-endian value formed by the five timestamp bytes; used to
state bit positions of the packed calendar fields. -/
def pgtm_bits (b0 b1 b2 b3 b4 : Nat) : Nat :=
  b0 * 4294967296 + b1 * 16777216 + b2 * 65536 + b3 * 256 + b4

/-- The six bitfield extractions of `parse_pgtm` (src lines 596-601), on
byte values (uint8, i.e. `< 256`):
`year  = ((b0 << 8) | b1) >> 2`        is `(b0 * 256 + b1) / 4`,
`month = (b1 & 0x03) << 2 | (b2 >> 6)` is `(b1 % 4) * 4 + b2 / 64`,
`day   = (b2 & 0x3E) >> 1`             is `(b2 % 64) / 2`,
`hour  = (b2 & 0x01) << 4 | (b3 >> 4)` is `(b2 % 2) * 16 + b3 / 16`,
`min   = (b3 & 0x0F) << 2 | (b4 >> 6)` is `(b3 % 16) * 4 + b4 / 64`,
`sec   = b4 & 0x3F`                    is `b4 % 64`. -/
def parse_pgtm_fields (b0 b1 b2 b3 b4 : Nat) : pgtm_fields where
  year := (b0 * 256 + b1) / 4
  month := (b1 % 4) * 4 + b2 / 64
  day := (b2 % 64) / 2
  hour := (b2 % 2) * 16 + b3 / 16
  min := (b3 % 16) * 4 + b4 / 64
  sec := b4 % 64

/-- `parse_pgtm` (src lines 592-619): a zero year means "not set" (the
function prints "date : not set" and returns false, modelled as `none`);
otherwise the tm structure is filled with `year-1900`, `month-1` and the
remaining fields unchanged, and the function returns true (`some`). -/
def parse_pgtm (b0 b1 b2 b3 b4 : Nat) : Option tm_t :=
  let f := parse_pgtm_fields b0 b1 b2 b3 b4
  if f.year = 0 then none
  else some ⟨(f.year : Int) - 1900, (f.month : Int) - 1, f.day, f.hour, f.min, f.sec⟩

/-- `parse_audio_attr` (src lines 496-527) on the three attribute bytes:
`coding = (a0 & 0xE0) >> 5`, `channels = a1 & 0x0F`.  Returns the reported
channel count together with the coding code on success (`channels < 8`
reports `channels+1`; the literal 9 reports 2, the mono-flagged stereo
case); any other channel value makes the function return false (`none`). -/
def parse_audio_attr (a0 a1 _a2 : Nat) : Option (Nat × Nat) :=
  let coding := (a0 % 256) / 32
  let channels := a1 % 16
  if channels < 8 then some (channels + 1, coding)
  else if channels = 9 then some (2, coding)
  else none

/-! ## Program label resolution (src lines 627-646) -/

/-- Loop body of `find_program_text_info`.  `program_count` is the uint16
running total; a stored `first_prog_id` of 0 or 0xFFFF selects the inferred
form `program_count + 1` (uint16, hence `% 65536`) and adds the entry's
program count to the running total (uint16 `+=`).  `end_prog_num` is a
uint16: `start + nr_of_programs - 1` truncated mod 2^16, written
`(start + nr + 65535) % 65536` (the intermediate C value is an int in
[-1, 131069]).  Returns the index of the first entry whose
[start, end] interval contains `program`. -/
def find_go : List psi_t → Nat → Nat → Nat → Option Nat
  | [], _, _, _ => none
  | psi :: rest, idx, program_count, program =>
    let start_prog_num := if psi.first_prog_id = 0 ∨ psi.first_prog_id = 65535
                          then (program_count + 1) % 65536 else psi.first_prog_id
    let program_count2 := if psi.first_prog_id = 0 ∨ psi.first_prog_id = 65535
                          then (program_count + psi.nr_of_programs) % 65536 else program_count
    let end_prog_num := (start_prog_num + psi.nr_of_programs + 65535) % 65536
    if start_prog_num ≤ program ∧ program ≤ end_prog_num then some idx
    else find_go rest (idx + 1) program_count2 program

/-- `find_program_text_info` (src lines 627-646), with the entry table as a
list and the returned pointer rendered as the entry's index. -/
def find_program_text_info (entries : List psi_t) (program : Nat) : Option Nat :=
  find_go entries 0 0 program

/-- Modelled from the spec words of the claim (ideal, width-unbounded
arithmetic): each entry's start index is its stored first-program-index when
that field is neither 0 nor 0xFFFF and otherwise `running_total + 1`; its
end index is `start + program_count - 1`; the running total grows by the
entry's program count exactly when the stored field is 0 or 0xFFFF; the
first entry whose [start, end] interval contains the query is returned. -/
def resolveSpecGo : List psi_t → Nat → Nat → Nat → Option Nat
  | [], _, _, _ => none
  | e :: rest, idx, running_total, program =>
    let start := if e.first_prog_id ≠ 0 ∧ e.first_prog_id ≠ 65535
                 then e.first_prog_id else running_total + 1
    let stop := start + e.nr_of_programs - 1
    if start ≤ program ∧ program ≤ stop then some idx
    else
      resolveSpecGo rest (idx + 1)
        (if e.first_prog_id = 0 ∨ e.first_prog_id = 65535
         then running_total + e.nr_of_programs else running_total) program

/-- Spec-side resolver (see `resolveSpecGo`). -/
def resolveSpec (entries : List psi_t) (program : Nat) : Option Nat :=
  resolveSpecGo entries 0 0 program

/-- True when, scanning the entries with running total `rt`, every computed
start index fits in 16 bits and no interval end `start + count - 1`
overflows 16 bits; under this condition the uint16 arithmetic of
`find_go` coincides with the ideal arithmetic of `resolveSpecGo`. -/
def noOverflowB : List psi_t → Nat → Bool
  | [], _ => true
  | e :: rest, rt =>
    let start := if e.first_prog_id = 0 ∨ e.first_prog_id = 65535
                 then rt + 1 else e.first_prog_id
    let rt2 := if e.first_prog_id = 0 ∨ e.first_prog_id = 65535
               then rt + e.nr_of_programs else rt
    decide (start ≤ 65535) && decide (start + e.nr_of_programs ≤ 65536) && noOverflowB rest rt2

/-! ## VRO seek offset (src line 1027) -/

/-- The seek offset computed at src line 1027:
`lseek(vro_fd, vobu_map->vob_offset*DVD_SECTOR_SIZE, SEEK_SET)`.
`vob_offset` is a uint32 and `DVD_SECTOR_SIZE` (2048) an int, so the C
multiplication is performed in 32-bit unsigned arithmetic and wraps mod
2^32 before being widened to the 64-bit off_t argument. -/
def vro_seek_offset (vob_offset : Nat) : Nat :=
  (vob_offset * 2048) % 4294967296

/-! ## stream_data (src lines 174-269), with BLOCKS_PER_OP = 1 -/

/-- Observable outcome of one `stream_data` run: the C return value
(0, -1 read failure, -2 write failure), the bytes obtained from the source
and handed to the destination, and whether the tail-truncation branch
`if (blocks-block < BLOCKS_PER_OP) bs = blocks-block;` was ever taken. -/
structure stream_result_t where
  ret : Int
  bytesRead : Nat
  bytesWritten : Nat
  truncUsed : Bool
  deriving Repr, DecidableEq

/-- The copy loop of `stream_data` (src lines 226-244) with
`BLOCKS_PER_OP = 1`: iterations are indexed by `block`, the fuel `n` equals
`blocks - block`.  `readR block` / `writeR block` give the byte counts the
`read` / `write` calls return at that iteration (a failing read is its
returned count; an error return is modelled as 0). -/
def stream_dataGo (blocks block_size : Nat) (readR writeR : Nat → Nat) :
    Nat → Nat → Nat → Nat → Bool → stream_result_t
  | 0, _, br, bw, tr => ⟨0, br, bw, tr⟩
  | n + 1, block, br, bw, tr =>
    let bs := if blocks - block < 1 then blocks - block else block_size
    let tr2 := tr || decide (blocks - block < 1)
    let r := readR block
    if r ≠ bs then ⟨-1, br + r, bw, tr2⟩
    else
      let w := writeR block
      if w ≠ bs then ⟨-2, br + r, bw + w, tr2⟩
      else stream_dataGo blocks block_size readR writeR n (block + 1) (br + r) (bw + w) tr2

/-- `stream_data` (src lines 174-269): streams `blocks` blocks of
`block_size` bytes from the source oracle to the destination oracle. -/
def stream_data (blocks block_size : Nat) (readR writeR : Nat → Nat) : stream_result_t :=
  stream_dataGo blocks block_size readR writeR blocks 0 0 0 false

/-! ## The per-program extraction loop of main (src lines 940-1097) -/

/-- Result of one `stream_data` call as seen by the VOBU loop in `main`
(src lines 1049-1073): 0, -1 (read error, recovered by skipping within the
source) or -2 (write error, `exit(EXIT_FAILURE)`). -/
inductive StreamOutcome where
  | ok
  | readErr
  | writeErr
  deriving Repr, DecidableEq

/-- One program as `main` sees it: the name base chosen for its output file
(src lines 963-978, abstracted since it comes from `strftime`), and its
VOBU size records. -/
structure ProgSpec where
  vobBase : String
  vobus : List vobu_info_t
  deriving Repr, DecidableEq

/-- What `main` reports for one program: the program-set entry found for
its label (src lines 950-955), the output name opened (none = skipped), and
the byte size printed at src line 1094 (none = skipped or aborted). -/
structure ProgReport where
  label : Option Nat
  opened : Option String
  size : Option Nat
  deriving Repr, DecidableEq

/-- `%03d` formatting of the program number used in the fallback name
(src lines 970, 992). -/
def pad3 (n : Nat) : String :=
  if n < 10 then "00" ++ toString n
  else if n < 100 then "0" ++ toString n
  else toString n

/-- The output-open logic of `main` (src lines 982-1001).  `-` (stdout) is
always available; otherwise `vob_base ++ ".vob"` is opened with O_EXCL, and
exactly when that fails with EEXIST (`fsExists`) and the default timestamp
naming is in effect (`base_name == TIMESTAMP_FMT`, src line 988), one retry
is made with the `#NNN` suffix; a second failure yields `none` (the caller
skips the program). -/
def openOutput (fsExists : String → Bool) (timestampNaming toStdout : Bool)
    (vob_base : String) (prognum : Nat) : Option String :=
  if toStdout then some "-"
  else
    let name1 := vob_base ++ ".vob"
    if fsExists name1 then
      if timestampNaming then
        let name2 := vob_base ++ "#" ++ pad3 prognum ++ ".vob"
        if fsExists name2 then none else some name2
      else none
    else some name1

/-- The VOBU loop of `main` (src lines 1040-1080) for one program, with the
result of each `stream_data` call supplied by the oracle `oc`.  A write
error (`ret == -2`) exits the process (`none`); a read error is recovered
and, like success, is followed by `tot += vobu_size` (src line 1078). -/
def extractTot : List vobu_info_t → (Nat → StreamOutcome) → Nat → Nat → Option Nat
  | [], _, _, tot => some tot
  | v :: rest, oc, i, tot =>
    match oc i with
    | StreamOutcome.writeErr => none
    | _ => extractTot rest oc (i + 1) (tot + vobu_size v)

/-- The program loop of `main` (src lines 940-1097) in extraction mode
(`vro_fd != -1`, no `-p` filter): for each program the label is resolved,
the output is opened (failure skips the program, src lines 996-1000), the
VOBUs are streamed, and the size `tot * 2048` is printed; a write error
aborts the whole run with EXIT_FAILURE (1), otherwise the loop ends with
EXIT_SUCCESS (0). -/
def runProgramsGo (psis : List psi_t) (fsExists : String → Bool)
    (timestampNaming toStdout : Bool) (oc : Nat → Nat → StreamOutcome) :
    List ProgSpec → Nat → List ProgReport × Nat
  | [], _ => ([], 0)
  | p :: rest, idx =>
    let label := find_program_text_info psis (idx + 1)
    match openOutput fsExists timestampNaming toStdout p.vobBase (idx + 1) with
    | none =>
      let r := runProgramsGo psis fsExists timestampNaming toStdout oc rest (idx + 1)
      (⟨label, none, none⟩ :: r.1, r.2)
    | some name =>
      match extractTot p.vobus (oc idx) 0 0 with
      | none => ([⟨label, some name, none⟩], 1)
      | some tot =>
        let r := runProgramsGo psis fsExists timestampNaming toStdout oc rest (idx + 1)
        (⟨label, some name, some (tot * 2048)⟩ :: r.1, r.2)

/-- Whole extraction run (see `runProgramsGo`), program indices from 0. -/
def runPrograms (psis : List psi_t) (fsExists : String → Bool)
    (timestampNaming toStdout : Bool) (oc : Nat → Nat → StreamOutcome)
    (progs : List ProgSpec) : List ProgReport × Nat :=
  runProgramsGo psis fsExists timestampNaming toStdout oc progs 0

/-- The report `runProgramsGo` produces for one program when no write error
occurs: open failure gives a skipped report, otherwise the declared size
`sum * 2048` is reported. -/
def expectedReport (psis : List psi_t) (fsExists : String → Bool)
    (timestampNaming toStdout : Bool) (prognum : Nat) (p : ProgSpec) : ProgReport :=
  match openOutput fsExists timestampNaming toStdout p.vobBase prognum with
  | none => ⟨find_program_text_info psis prognum, none, none⟩
  | some name =>
      ⟨find_program_text_info psis prognum, some name,
       some ((p.vobus.map vobu_size).sum * 2048)⟩

/-- Reports of a whole run without write errors (see `expectedReport`). -/
def expectedReports (psis : List psi_t) (fsExists : String → Bool)
    (timestampNaming toStdout : Bool) : List ProgSpec → Nat → List ProgReport
  | [], _ => []
  | p :: rest, idx =>
    expectedReport psis fsExists timestampNaming toStdout (idx + 1) p ::
      expectedReports psis fsExists timestampNaming toStdout rest (idx + 1)

/-- A filesystem in which both the plain and the suffixed name for program
1 with base "A" already exist. -/
def cexFs : String → Bool :=
  fun n => n == "A.vob" || n == "A#001.vob"

/-- A filesystem in which only the plain name for base "A" exists. -/
def cexFs2 : String → Bool :=
  fun n => n == "A.vob"

/-- Stream oracle with every `stream_data` call succeeding. -/
def ocOk : Nat → Nat → StreamOutcome :=
  fun _ _ => StreamOutcome.ok

/-! ## Theorems -/

/-- C1 counterexample: on the two-entry table of the claim (entry A with
explicit first-program-index 1 and count 3, entry B with stored
first-program-index 0 and count 2), resolving program 4 does NOT return
entry B (index 1): it returns no match, because the running total is only
advanced by inferred-form entries, so entry B's inferred interval is
[1, 2]. -/
theorem claim1_cex :
    find_program_text_info [⟨3, 1⟩, ⟨2, 0⟩] 4 = none := by decide

/-- C1 (amended): with entry A = (explicit start 1, count 3) and entry B =
(stored start 0, count 2), resolving program 4 returns no match, and
resolving program 6 returns no match; both are "not found" results, not
errors. -/
theorem claim1_amended :
    find_program_text_info [⟨3, 1⟩, ⟨2, 0⟩] 4 = none ∧
    find_program_text_info [⟨3, 1⟩, ⟨2, 0⟩] 6 = none := by decide

/-- C3: the seek offset for a VobuMap sector offset `v` is computed in
32-bit unsigned arithmetic and therefore wraps: at `v = 2097152` (the
4 GiB boundary) the code seeks to byte 0 although the exact product
`v * 2048` is 4294967296. -/
theorem claim3_overflow :
    vro_seek_offset 2097152 = 0 ∧ 2097152 * 2048 = 4294967296 := by decide

/-- C7: the decoded sector count of a 3-byte VOBU size record is the lower
10 bits of the big-endian 16-bit value formed from its last two bytes; in
particular last-two-bytes 0x07FF decodes to 1023 sectors and 0x0000 to 0
sectors. -/
theorem claim7_vobu :
    (∀ v : vobu_info_t, v.b1 < 256 → v.b2 < 256 →
      vobu_size v = (v.b1 * 256 + v.b2) % 1024) ∧
    vobu_size ⟨0, 7, 255⟩ = 1023 ∧ vobu_size ⟨0, 0, 0⟩ = 0 := by
  refine ⟨?_, by decide, by decide⟩
  intro v h1 h2
  simp [vobu_size, read_u16be, Nat.mod_eq_of_lt h1, Nat.mod_eq_of_lt h2]

/-- C7 witness: the general part of `claim7_vobu` applied to the record
with last two bytes 0x07FF. -/
theorem claim7_witness :
    vobu_size ⟨0, 7, 255⟩ = (7 * 256 + 255) % 1024 :=
  claim7_vobu.1 ⟨0, 7, 255⟩ (by decide) (by decide)

/-- C8: with `c` the low 4 bits of audio attribute byte 1: `c < 8` reports
`c + 1` channels and succeeds, `c = 9` reports 2 channels (mono-flagged
stereo) and succeeds, and every other value (`c = 8` or `10 ≤ c ≤ 15`)
makes the decode fail. -/
theorem claim8_audio (a0 a1 a2 : Nat) :
    (a1 % 16 < 8 → (parse_audio_attr a0 a1 a2).map Prod.fst = some (a1 % 16 + 1)) ∧
    (a1 % 16 = 9 → (parse_audio_attr a0 a1 a2).map Prod.fst = some 2) ∧
    (a1 % 16 = 8 ∨ (10 ≤ a1 % 16 ∧ a1 % 16 ≤ 15) → parse_audio_attr a0 a1 a2 = none) := by
  refine ⟨fun h => ?_, fun h => ?_, fun h => ?_⟩
  · simp [parse_audio_attr, h]
  · rw [parse_audio_attr]
    simp [h]
  · rw [parse_audio_attr]
    have h1 : ¬ a1 % 16 < 8 := by omega
    have h2 : ¬ a1 % 16 = 9 := by omega
    simp [h1, h2]

/-- C8 witness: `claim8_audio` at byte 1 = 25 (low nibble 9, the special
case) and at byte 1 = 10 (a failing value). -/
theorem claim8_witness :
    (parse_audio_attr 0 25 0).map Prod.fst = some 2 ∧ parse_audio_attr 0 10 0 = none :=
  ⟨(claim8_audio 0 25 0).2.1 (by decide), (claim8_audio 0 10 0).2.2 (by decide)⟩

/-- C6: on byte values, the decoder extracts year from the top 14 bits of
the 40-bit packed value (bytes 0-1), month from the next 4 bits, day from
the next 5, hour from the next 5, minute from the next 6, second from the
low 6 bits; a zero year yields "not set" (`none`) instead of a date; and
the bytes packing {year 2024, month 3, day 5, hour 14, min 30, sec 45}
decode back to exactly those six values. -/
theorem claim6_pgtm :
    (∀ b0 b1 b2 b3 b4 : Nat, b0 < 256 → b1 < 256 → b2 < 256 → b3 < 256 → b4 < 256 →
      ((parse_pgtm_fields b0 b1 b2 b3 b4).year = pgtm_bits b0 b1 b2 b3 b4 / 67108864 ∧
       (parse_pgtm_fields b0 b1 b2 b3 b4).month = pgtm_bits b0 b1 b2 b3 b4 / 4194304 % 16 ∧
       (parse_pgtm_fields b0 b1 b2 b3 b4).day = pgtm_bits b0 b1 b2 b3 b4 / 131072 % 32 ∧
       (parse_pgtm_fields b0 b1 b2 b3 b4).hour = pgtm_bits b0 b1 b2 b3 b4 / 4096 % 32 ∧
       (parse_pgtm_fields b0 b1 b2 b3 b4).min = pgtm_bits b0 b1 b2 b3 b4 / 64 % 64 ∧
       (parse_pgtm_fields b0 b1 b2 b3 b4).sec = pgtm_bits b0 b1 b2 b3 b4 % 64) ∧
      (parse_pgtm b0 b1 b2 b3 b4 = none ↔ pgtm_bits b0 b1 b2 b3 b4 / 67108864 = 0)) ∧
    parse_pgtm_fields 31 160 202 231 173 = ⟨2024, 3, 5, 14, 30, 45⟩ := by
  refine ⟨?_, by decide⟩
  intro b0 b1 b2 b3 b4 h0 h1 h2 h3 h4
  have hyear : (parse_pgtm_fields b0 b1 b2 b3 b4).year =
      pgtm_bits b0 b1 b2 b3 b4 / 67108864 := by
    simp only [parse_pgtm_fields, pgtm_bits]
    omega
  refine ⟨⟨hyear, ?_, ?_, ?_, ?_, ?_⟩, ?_⟩
  · simp only [parse_pgtm_fields, pgtm_bits]
    omega
  · simp only [parse_pgtm_fields, pgtm_bits]
    omega
  · simp only [parse_pgtm_fields, pgtm_bits]
    omega
  · simp only [parse_pgtm_fields, pgtm_bits]
    omega
  · simp only [parse_pgtm_fields, pgtm_bits]
    omega
  · rw [parse_pgtm, ← hyear]
    by_cases hz : (parse_pgtm_fields b0 b1 b2 b3 b4).year = 0 <;> simp [hz]

/-- C6 witness: the general part of `claim6_pgtm` applied to the packed
bytes of {2024-03-05 14:30:45}. -/
theorem claim6_witness :
    ((parse_pgtm_fields 31 160 202 231 173).year = pgtm_bits 31 160 202 231 173 / 67108864 ∧
     (parse_pgtm_fields 31 160 202 231 173).month = pgtm_bits 31 160 202 231 173 / 4194304 % 16 ∧
     (parse_pgtm_fields 31 160 202 231 173).day = pgtm_bits 31 160 202 231 173 / 131072 % 32 ∧
     (parse_pgtm_fields 31 160 202 231 173).hour = pgtm_bits 31 160 202 231 173 / 4096 % 32 ∧
     (parse_pgtm_fields 31 160 202 231 173).min = pgtm_bits 31 160 202 231 173 / 64 % 64 ∧
     (parse_pgtm_fields 31 160 202 231 173).sec = pgtm_bits 31 160 202 231 173 % 64) ∧
    (parse_pgtm 31 160 202 231 173 = none ↔ pgtm_bits 31 160 202 231 173 / 67108864 = 0) :=
  claim6_pgtm.1 31 160 202 231 173 (by decide) (by decide) (by decide) (by decide) (by decide)

/-- Invariant of the `stream_data` loop with `BLOCKS_PER_OP = 1`: with
`block + n = blocks` the truncation branch is never taken and a zero return
means every iteration transferred exactly `block_size` bytes. -/
lemma stream_dataGo_spec (blocks block_size : Nat) (readR writeR : Nat → Nat) :
    ∀ n block br bw, block + n = blocks →
      (stream_dataGo blocks block_size readR writeR n block br bw false).truncUsed = false ∧
      ((stream_dataGo blocks block_size readR writeR n block br bw false).ret = 0 →
        (stream_dataGo blocks block_size readR writeR n block br bw false).bytesRead =
          br + n * block_size ∧
        (stream_dataGo blocks block_size readR writeR n block br bw false).bytesWritten =
          bw + n * block_size) := by
  intro n
  induction n with
  | zero =>
    intro block br bw h
    exact ⟨rfl, fun _ => by simp [stream_dataGo]⟩
  | succ n ih =>
    intro block br bw h
    have hbb : ¬ blocks - block < 1 := by omega
    have hd : decide (blocks - block < 1) = false := decide_eq_false hbb
    rw [stream_dataGo]
    simp only [if_neg hbb, hd, Bool.or_false]
    by_cases hr : readR block ≠ block_size
    · rw [if_pos hr]
      refine ⟨rfl, fun hc => ?_⟩
      have hc2 : (-1 : Int) = 0 := hc
      exact absurd hc2 (by decide)
    · rw [if_neg hr]
      by_cases hw : writeR block ≠ block_size
      · rw [if_pos hw]
        refine ⟨rfl, fun hc => ?_⟩
        have hc2 : (-2 : Int) = 0 := hc
        exact absurd hc2 (by decide)
      · rw [if_neg hw]
        push_neg at hr hw
        obtain ⟨ht, hz⟩ := ih (block + 1) (br + readR block) (bw + writeR block) (by omega)
        refine ⟨ht, fun h0 => ?_⟩
        obtain ⟨hR, hW⟩ := hz h0
        constructor
        · rw [hR, hr, Nat.succ_mul]
          ring
        · rw [hW, hw, Nat.succ_mul]
          ring

/-- C10: in `stream_data` as configured (`BLOCKS_PER_OP = 1`) the
tail-truncation branch that would set the per-operation byte count to
`blocks - block` is unreachable, and a zero (successful) return implies
exactly `blocks * block_size` bytes were read from the source and written
to the destination. -/
theorem claim10_stream (blocks block_size : Nat) (readR writeR : Nat → Nat) :
    (stream_data blocks block_size readR writeR).truncUsed = false ∧
    ((stream_data blocks block_size readR writeR).ret = 0 →
      (stream_data blocks block_size readR writeR).bytesRead = blocks * block_size ∧
      (stream_data blocks block_size readR writeR).bytesWritten = blocks * block_size) := by
  have h := stream_dataGo_spec blocks block_size readR writeR blocks 0 0 0 (by omega)
  rw [stream_data]
  exact ⟨h.1, fun h0 => by simpa using h.2 h0⟩

/-- C10 witness: `claim10_stream` on a successful 2-block run with
block size 3. -/
theorem claim10_witness :
    (stream_data 2 3 (fun _ => 3) (fun _ => 3)).bytesRead = 2 * 3 ∧
    (stream_data 2 3 (fun _ => 3) (fun _ => 3)).bytesWritten = 2 * 3 :=
  (claim10_stream 2 3 (fun _ => 3) (fun _ => 3)).2 (by decide)

/-- When the VOBU loop completes (no write error), its accumulator equals
the initial value plus the sum of the decoded sector counts, whatever the
read outcomes were. -/
lemma extractTot_some :
    ∀ (vobus : List vobu_info_t) (oc : Nat → StreamOutcome) (i tot tot2 : Nat),
      extractTot vobus oc i tot = some tot2 →
      tot2 = tot + (vobus.map vobu_size).sum := by
  intro vobus
  induction vobus with
  | nil =>
    intro oc i tot tot2 h
    simp [extractTot] at h
    simp [h]
  | cons v rest ih =>
    intro oc i tot tot2 h
    rw [extractTot] at h
    cases hoc : oc i with
    | writeErr => rw [hoc] at h; exact absurd h (by simp)
    | ok =>
      rw [hoc] at h
      have := ih oc (i + 1) (tot + vobu_size v) tot2 h
      simp only [List.map_cons, List.sum_cons]
      omega
    | readErr =>
      rw [hoc] at h
      have := ih oc (i + 1) (tot + vobu_size v) tot2 h
      simp only [List.map_cons, List.sum_cons]
      omega

/-- C4: whenever the per-program VOBU loop runs to completion, the reported
size `tot * 2048` equals `2048 *` the sum of the decoded 10-bit sector
counts of the program's VOBU records, no matter how many reads failed. -/
theorem claim4_total (vobus : List vobu_info_t) (oc : Nat → StreamOutcome) (tot : Nat)
    (h : extractTot vobus oc 0 0 = some tot) :
    tot * 2048 = 2048 * (vobus.map vobu_size).sum := by
  have h2 := extractTot_some vobus oc 0 0 tot h
  rw [h2]
  ring

/-- C4 witness: a two-record program in which the first read fails still
reports `2048 * (10 + 3)` bytes. -/
theorem claim4_witness :
    extractTot [⟨0, 0, 10⟩, ⟨0, 0, 3⟩] (fun i => if i = 0 then StreamOutcome.readErr else StreamOutcome.ok) 0 0 = some 13 ∧
    13 * 2048 = 2048 * (([⟨0, 0, 10⟩, ⟨0, 0, 3⟩] : List vobu_info_t).map vobu_size).sum :=
  ⟨by decide,
   claim4_total [⟨0, 0, 10⟩, ⟨0, 0, 3⟩]
     (fun i => if i = 0 then StreamOutcome.readErr else StreamOutcome.ok) 13 (by decide)⟩

/-- On entry tables whose 16-bit arithmetic never overflows, the uint16
scan of `find_go` agrees with the ideal scan of `resolveSpecGo`. -/
lemma find_go_eq_spec :
    ∀ (entries : List psi_t) (idx pc program : Nat),
      noOverflowB entries pc = true → pc ≤ 65535 →
      find_go entries idx pc program = resolveSpecGo entries idx pc program := by
  intro entries
  induction entries with
  | nil => intro idx pc program _ _; rfl
  | cons e rest ih =>
    intro idx pc program h hpc
    rw [noOverflowB] at h
    simp only [Bool.and_eq_true, decide_eq_true_eq] at h
    simp only [find_go, resolveSpecGo]
    by_cases h0 : e.first_prog_id = 0 ∨ e.first_prog_id = 65535
    · rw [if_pos h0, if_pos h0] at h
      have h0n : ¬ (e.first_prog_id ≠ 0 ∧ e.first_prog_id ≠ 65535) :=
        fun hn => h0.elim (fun hh => hn.1 hh) (fun hh => hn.2 hh)
      rw [if_pos h0, if_pos h0, if_pos h0, if_neg h0n]
      have e1 : (pc + 1) % 65536 = pc + 1 := by omega
      have e2 : (pc + 1 + e.nr_of_programs + 65535) % 65536 =
          pc + 1 + e.nr_of_programs - 1 := by omega
      have e3 : (pc + e.nr_of_programs) % 65536 = pc + e.nr_of_programs := by omega
      rw [e1, e2, e3]
      by_cases hin : pc + 1 ≤ program ∧ program ≤ pc + 1 + e.nr_of_programs - 1
      · rw [if_pos hin, if_pos hin]
      · rw [if_neg hin, if_neg hin]
        exact ih (idx + 1) (pc + e.nr_of_programs) program h.2 (by omega)
    · rw [if_neg h0, if_neg h0] at h
      push_neg at h0
      have h0o : ¬ (e.first_prog_id = 0 ∨ e.first_prog_id = 65535) :=
        fun hc => hc.elim (fun hh => h0.1 hh) (fun hh => h0.2 hh)
      rw [if_neg h0o, if_neg h0o, if_neg h0o, if_pos h0]
      have hf1 : e.first_prog_id ≠ 0 := h0.1
      have e2 : (e.first_prog_id + e.nr_of_programs + 65535) % 65536 =
          e.first_prog_id + e.nr_of_programs - 1 := by omega
      rw [e2]
      by_cases hin : e.first_prog_id ≤ program ∧
          program ≤ e.first_prog_id + e.nr_of_programs - 1
      · rw [if_pos hin, if_pos hin]
      · rw [if_neg hin, if_neg hin]
        exact ih (idx + 1) pc program h.2 hpc

/-- The exit status of the program loop never depends on the program-set
table used for label lookup: a missing label is reported, not fatal. -/
lemma runProgramsGo_exit_psis (ps1 ps2 : List psi_t) (fsE : String → Bool)
    (tsN toStd : Bool) (oc : Nat → Nat → StreamOutcome) :
    ∀ (progs : List ProgSpec) (idx : Nat),
      (runProgramsGo ps1 fsE tsN toStd oc progs idx).2 =
        (runProgramsGo ps2 fsE tsN toStd oc progs idx).2 := by
  intro progs
  induction progs with
  | nil => intro idx; rfl
  | cons p rest ih =>
    intro idx
    rw [runProgramsGo, runProgramsGo]
    cases openOutput fsE tsN toStd p.vobBase (idx + 1) with
    | none => simpa using ih (idx + 1)
    | some name =>
      cases extractTot p.vobus (oc idx) 0 0 with
      | none => rfl
      | some tot => simpa using ih (idx + 1)

/-- Without write errors the VOBU loop always completes, returning the
accumulated declared size. -/
lemma extractTot_no_writeErr (oc : Nat → StreamOutcome)
    (h : ∀ j, oc j ≠ StreamOutcome.writeErr) :
    ∀ (vobus : List vobu_info_t) (i tot : Nat),
      extractTot vobus oc i tot = some (tot + (vobus.map vobu_size).sum) := by
  intro vobus
  induction vobus with
  | nil => intro i tot; simp [extractTot]
  | cons v rest ih =>
    intro i tot
    rw [extractTot]
    cases hoc : oc i with
    | writeErr => exact absurd hoc (h i)
    | ok =>
      rw [ih (i + 1) (tot + vobu_size v)]
      simp only [List.map_cons, List.sum_cons, Option.some.injEq]
      ring
    | readErr =>
      rw [ih (i + 1) (tot + vobu_size v)]
      simp only [List.map_cons, List.sum_cons, Option.some.injEq]
      ring

/-- Without write errors, the whole run succeeds (exit 0) and produces
exactly the `expectedReports`. -/
lemma runProgramsGo_no_writeErr (psis : List psi_t) (fsE : String → Bool)
    (tsN toStd : Bool) (oc : Nat → Nat → StreamOutcome)
    (h : ∀ i j, oc i j ≠ StreamOutcome.writeErr) :
    ∀ (progs : List ProgSpec) (idx : Nat),
      runProgramsGo psis fsE tsN toStd oc progs idx =
        (expectedReports psis fsE tsN toStd progs idx, 0) := by
  intro progs
  induction progs with
  | nil => intro idx; rfl
  | cons p rest ih =>
    intro idx
    rw [runProgramsGo, expectedReports, expectedReport]
    cases openOutput fsE tsN toStd p.vobBase (idx + 1) with
    | none => rw [ih (idx + 1)]
    | some name =>
      rw [extractTot_no_writeErr (oc idx) (fun j => h idx j) p.vobus 0 0, ih (idx + 1)]
      simp

/-- Element access into `expectedReports`. -/
lemma expectedReports_getD (psis : List psi_t) (fsE : String → Bool)
    (tsN toStd : Bool) :
    ∀ (progs : List ProgSpec) (idx i : Nat), i < progs.length →
      (expectedReports psis fsE tsN toStd progs idx).getD i ⟨none, none, none⟩ =
        expectedReport psis fsE tsN toStd (idx + i + 1) (progs.getD i ⟨"", []⟩) := by
  intro progs
  induction progs with
  | nil => intro idx i hi; simp at hi
  | cons p rest ih =>
    intro idx i hi
    rw [expectedReports]
    cases i with
    | zero => simp
    | succ i =>
      simp only [List.getD_cons_succ]
      rw [ih (idx + 1) i (by simpa using hi)]
      congr 1
      omega

/-- Length of `expectedReports`. -/
lemma expectedReports_length (psis : List psi_t) (fsE : String → Bool)
    (tsN toStd : Bool) :
    ∀ (progs : List ProgSpec) (idx : Nat),
      (expectedReports psis fsE tsN toStd progs idx).length = progs.length := by
  intro progs
  induction progs with
  | nil => intro idx; rfl
  | cons p rest ih =>
    intro idx
    rw [expectedReports]
    simp [ih (idx + 1)]

/-- C5 counterexample: the claim's ideal arithmetic differs from the code.
On the single entry (count 10, explicit first-program-index 65534) the
claim's interval is [65534, 65543], so index 65535 should resolve to that
entry; the code stores `end_prog_num` in a uint16, truncating it to 7, and
finds no match. -/
theorem claim5_cex :
    find_program_text_info [⟨10, 65534⟩] 65535 = none ∧
    resolveSpec [⟨10, 65534⟩] 65535 = some 0 := by decide

/-- C5 (amended): on every entry table whose computed start indices and
interval ends fit in 16 bits (no uint16 overflow), the resolver behaves
exactly as the claim describes: running total advanced only by entries
whose stored first-program-index is 0 or 0xFFFF, start = stored field or
running_total + 1, end = start + count - 1, first containing entry wins,
and no match is merely a missing label, never affecting the exit status. -/
theorem claim5_resolver (entries : List psi_t) (h : noOverflowB entries 0 = true) :
    (∀ program, find_program_text_info entries program = resolveSpec entries program) ∧
    (∀ (ps2 : List psi_t) (fsE : String → Bool) (tsN toStd : Bool)
        (oc : Nat → Nat → StreamOutcome) (progs : List ProgSpec),
      (runPrograms entries fsE tsN toStd oc progs).2 =
        (runPrograms ps2 fsE tsN toStd oc progs).2) := by
  constructor
  · intro program
    exact find_go_eq_spec entries 0 0 program h (by omega)
  · intro ps2 fsE tsN toStd oc progs
    exact runProgramsGo_exit_psis entries ps2 fsE tsN toStd oc progs 0

/-- C5 witness: `claim5_resolver` on the two-entry table of C1 at query 4. -/
theorem claim5_witness :
    noOverflowB [⟨3, 1⟩, ⟨2, 0⟩] 0 = true ∧
    find_program_text_info [⟨3, 1⟩, ⟨2, 0⟩] 4 = resolveSpec [⟨3, 1⟩, ⟨2, 0⟩] 4 :=
  ⟨by decide, (claim5_resolver [⟨3, 1⟩, ⟨2, 0⟩] (by decide)).1 4⟩

/-- C2 counterexample: a run whose only program collides on both the plain
name "A.vob" and the suffixed name "A#001.vob" does NOT abort: it skips the
program and exits with status 0 (EXIT_SUCCESS), not a non-zero status.
Moreover, under an explicit `-n` base name (`timestampNaming = false`) a
collision is never retried at all: the single program is skipped directly
even though the suffixed name is free. -/
theorem claim2_cex :
    (runPrograms [] cexFs true false ocOk [⟨"A", []⟩]).2 = 0 ∧
    (runPrograms [] cexFs true false ocOk [⟨"A", []⟩]).1 = [⟨none, none, none⟩] ∧
    openOutput cexFs2 false false "A" 1 = none := by decide

/-- C2 (amended): under the default timestamp naming, when the chosen
destination name already exists the open is retried exactly once with the
`#NNN` suffix (and succeeds if that name is free); if the suffixed name
also exists, the program is skipped with no output and no reported size,
the run continues with the remaining programs, and (absent write errors)
still exits with the success status. -/
theorem claim2_amended (fsE : String → Bool) (psis : List psi_t)
    (oc : Nat → Nat → StreamOutcome) (p : ProgSpec) (rest : List ProgSpec) (idx : Nat)
    (h1 : fsE (p.vobBase ++ ".vob") = true)
    (h2 : fsE (p.vobBase ++ "#" ++ pad3 (idx + 1) ++ ".vob") = true) :
    openOutput fsE true false p.vobBase (idx + 1) = none ∧
    runProgramsGo psis fsE true false oc (p :: rest) idx =
      (⟨find_program_text_info psis (idx + 1), none, none⟩ ::
        (runProgramsGo psis fsE true false oc rest (idx + 1)).1,
       (runProgramsGo psis fsE true false oc rest (idx + 1)).2) ∧
    ((∀ i j, oc i j ≠ StreamOutcome.writeErr) →
      (runProgramsGo psis fsE true false oc (p :: rest) idx).2 = 0) ∧
    (∀ fs2 : String → Bool, fs2 (p.vobBase ++ ".vob") = true →
      fs2 (p.vobBase ++ "#" ++ pad3 (idx + 1) ++ ".vob") = false →
      openOutput fs2 true false p.vobBase (idx + 1) =
        some (p.vobBase ++ "#" ++ pad3 (idx + 1) ++ ".vob")) := by
  have hopen : openOutput fsE true false p.vobBase (idx + 1) = none := by
    rw [openOutput]
    simp [h1, h2]
  refine ⟨hopen, ?_, ?_, ?_⟩
  · simp only [runProgramsGo, hopen]
  · intro hw
    rw [runProgramsGo_no_writeErr psis fsE true false oc hw (p :: rest) idx]
  · intro fs2 hA hB
    rw [openOutput]
    simp [hA, hB]

/-- C2 witness: `claim2_amended` on the concrete double collision of
`claim2_cex`. -/
theorem claim2_witness :
    openOutput cexFs true false "A" 1 = none ∧
    (runProgramsGo [] cexFs true false ocOk [⟨"A", []⟩] 0).2 = 0 :=
  ⟨(claim2_amended cexFs [] ocOk ⟨"A", []⟩ [] 0 (by decide) (by decide)).1,
   (claim2_amended cexFs [] ocOk ⟨"A", []⟩ [] 0 (by decide) (by decide)).2.2.1
     (fun i j => by simp [ocOk])⟩

/-- C9: in a run without write errors, every program whose output cannot be
opened (both candidate names taken) is skipped on its own - its report
records no opened file and no size - the loop still produces one report per
program, and the whole process exits with the success status 0. -/
theorem claim9_skip (psis : List psi_t) (fsE : String → Bool) (tsN toStd : Bool)
    (oc : Nat → Nat → StreamOutcome) (progs : List ProgSpec)
    (h : ∀ i j, oc i j ≠ StreamOutcome.writeErr) :
    (runPrograms psis fsE tsN toStd oc progs).2 = 0 ∧
    (runPrograms psis fsE tsN toStd oc progs).1.length = progs.length ∧
    (∀ i, i < progs.length →
      openOutput fsE tsN toStd ((progs.getD i ⟨"", []⟩).vobBase) (i + 1) = none →
      (runPrograms psis fsE tsN toStd oc progs).1.getD i ⟨none, none, none⟩ =
        ⟨find_program_text_info psis (i + 1), none, none⟩) := by
  have hrun := runProgramsGo_no_writeErr psis fsE tsN toStd oc h progs 0
  rw [runPrograms, hrun]
  refine ⟨rfl, expectedReports_length psis fsE tsN toStd progs 0, ?_⟩
  intro i hi hopen
  have hg := expectedReports_getD psis fsE tsN toStd progs 0 i hi
  simp only [Nat.zero_add] at hg
  rw [hg, expectedReport, hopen]

/-- C9 witness: `claim9_skip` on a two-program run where program 1 collides
on both names and is skipped while the run exits 0. -/
theorem claim9_witness :
    (runPrograms [] cexFs true false ocOk [⟨"A", []⟩, ⟨"B", []⟩]).2 = 0 ∧
    (runPrograms [] cexFs true false ocOk [⟨"A", []⟩, ⟨"B", []⟩]).1.getD 0 ⟨none, none, none⟩ =
      ⟨find_program_text_info [] 1, none, none⟩ :=
  ⟨(claim9_skip [] cexFs true false ocOk [⟨"A", []⟩, ⟨"B", []⟩] (fun i j => by simp [ocOk])).1,
   (claim9_skip [] cexFs true false ocOk [⟨"A", []⟩, ⟨"B", []⟩] (fun i j => by simp [ocOk])).2.2
     0 (by decide) (by decide)⟩

end DvdVr
